import Mathlib

/-!
Verification of the file-based WhatsApp automation bridge in `src-tauri/src/main.rs`
(repository `oshtz/noder`).

The bridge consists of:
* a shared in-memory session cache (`WhatsAppState`, a mutex around a `WhatsAppStatus`),
* a status/QR monitor thread spawned by `init_whatsapp`,
* the synchronous dispatcher `send_whatsapp_message` (write `message.json`, poll for
  its disappearance or for `message_error.txt`, 100 ms interval, 5 s deadline),
* the synchronous status query `get_whatsapp_status`,
* per-id listener threads spawned by `listen_whatsapp_messages` watching
  `received_<id>.json` by modification time.

The embedding models each operation as a pure function.  Filesystem reads performed
by a loop are modelled as a trace of observations (one trace index per syscall);
filesystem writes performed by an operation are returned as an explicit action list.
IO primitives that the code assumes to succeed (directory creation, the write of
`message.json`, deletions whose errors are discarded with `.ok()`) are modelled as
succeeding.
-/

namespace Noder

/-- Rust `struct WhatsAppStatus` (main.rs): the session-status snapshot exchanged through
`status.txt` and held in the shared cache. -/
structure WhatsAppStatus where
  status : String
  timestamp : String
  is_authenticated : Bool
  is_client_ready : Bool
  is_initializing : Bool
deriving DecidableEq

/-- Rust `struct WhatsAppReceivedMessage` (main.rs): one inbound message delivered through
`received_<id>.json`.  The Rust fields `from` and `to` are Lean keywords, hence the
trailing underscores. -/
structure WhatsAppReceivedMessage where
  from_ : String
  to_ : String
  from_me : Bool
  content : String
  timestamp : String
deriving DecidableEq

/-- The initial cache value installed in `main()` before the Tauri builder runs:
status `"initializing"`, all flags false except `is_initializing`.  The timestamp is
`Utc::now().to_rfc3339()`, modelled as a parameter. -/
def mainInitStatus (ts : String) : WhatsAppStatus :=
  ⟨"initializing", ts, false, false, true⟩

/-! ## The status/QR monitor thread (`init_whatsapp`)

The thread keeps two local variables `last_status` and `last_qr` (both starting as
the empty string) and the shared cache.  Every 500 ms it reads `status.txt`; if the
read and the parse succeed and the parsed `status` field differs from `last_status`
it updates `last_status`, overwrites the cache, and emits a `whatsapp-status` event.
Independently it reads `qr.txt`; if the trimmed content differs from `last_qr` it
emits a `whatsapp-qr` event.  A poll cycle's file reads are modelled by their
results: `none` stands for a missing file, an IO failure, or (for the status file)
malformed JSON. -/

/-- The monitor thread's state: the two dedup variables plus the shared cache. -/
structure MonitorState where
  lastStatus : String
  lastQr : String
  cache : WhatsAppStatus
deriving DecidableEq

/-- Events the monitor emits to the UI. -/
inductive MonitorEvent where
  | statusChanged (s : WhatsAppStatus)
  | qrUpdated (q : String)
deriving DecidableEq

/-- The monitor state at thread start: `last_status` and `last_qr` are fresh empty
strings; the shared cache still holds the value installed by `main()`. -/
def monitorInitState (ts : String) : MonitorState :=
  ⟨"", "", mainInitStatus ts⟩

/-- The status half of one monitor poll cycle (`init_whatsapp`, the
`fs::read_to_string(&status_file)` block).  `obs` is the combined read/parse
result of `status.txt`. -/
def monitorStatusStep (st : MonitorState) (obs : Option WhatsAppStatus) :
    MonitorState × List MonitorEvent :=
  match obs with
  | none => (st, [])
  | some sd =>
    if sd.status ≠ st.lastStatus then
      ({ st with lastStatus := sd.status, cache := sd }, [MonitorEvent.statusChanged sd])
    else (st, [])

/-- The QR half of one monitor poll cycle (`init_whatsapp`, the
`fs::read_to_string(&qr_file_clone)` block).  `obs` is the read result of
`qr.txt`. -/
def monitorQrStep (st : MonitorState) (obs : Option String) :
    MonitorState × List MonitorEvent :=
  match obs with
  | none => (st, [])
  | some q =>
    if q.trim ≠ st.lastQr then
      ({ st with lastQr := q.trim }, [MonitorEvent.qrUpdated q.trim])
    else (st, [])

/-- One full monitor poll cycle: status check, then QR check. -/
def monitorCycle (st : MonitorState) (obs : Option WhatsAppStatus × Option String) :
    MonitorState × List MonitorEvent :=
  ((monitorQrStep (monitorStatusStep st obs.1).1 obs.2).1,
   (monitorStatusStep st obs.1).2 ++ (monitorQrStep (monitorStatusStep st obs.1).1 obs.2).2)

/-- A run of the monitor loop over a finite trace of poll-cycle observations,
returning the final state and the concatenated event log. -/
def monitorRun (st : MonitorState) : List (Option WhatsAppStatus × Option String) →
    MonitorState × List MonitorEvent
  | [] => (st, [])
  | o :: rest =>
    ((monitorRun (monitorCycle st o).1 rest).1,
     (monitorCycle st o).2 ++ (monitorRun (monitorCycle st o).1 rest).2)

/-- The status-changed events contained in a monitor event log. -/
def statusEvents (evs : List MonitorEvent) : List WhatsAppStatus :=
  evs.filterMap fun e =>
    match e with
    | MonitorEvent.statusChanged s => some s
    | MonitorEvent.qrUpdated _ => none

/-- Specification-side definition (from the spec's words, for the refinement
statement about the monitor): the subsequence of a trace of parsed status values
at which the `status` field changes relative to the last emitted one. -/
def statusDedupSpec (last : String) : List WhatsAppStatus → List WhatsAppStatus
  | [] => []
  | v :: rest =>
    if v.status ≠ last then v :: statusDedupSpec v.status rest
    else statusDedupSpec last rest

/-! ## The synchronous status query (`get_whatsapp_status`)

The command resolves `status.txt`; if the file does not exist it returns a default
"disconnected" status without touching the cache.  Otherwise it reads the file
(read failure is an error), parses it as generic JSON (parse failure is an error),
extracts the five fields with `unwrap_or` defaults, overwrites the shared cache
with the extracted value and returns it. -/

/-- Observable state of `status.txt` as seen by `get_whatsapp_status`:
absent, unreadable, not valid JSON, or a JSON value whose field lookups
(`as_str`/`as_bool`, `none` when missing or of the wrong type) are given. -/
inductive StatusFileState where
  | absent
  | readError
  | malformed
  | parsed (status timestamp : Option String)
      (isAuthenticated isClientReady isInitializing : Option Bool)
deriving DecidableEq

/-- The default returned by `get_whatsapp_status` when `status.txt` is absent. -/
def defaultDisconnectedStatus : WhatsAppStatus :=
  ⟨"disconnected", "0", false, false, false⟩

/-- Field extraction in `get_whatsapp_status`: `status["..."].as_str().unwrap_or(..)`
and `.as_bool().unwrap_or(false)`. -/
def extractStatusFields (s t : Option String) (a r i : Option Bool) : WhatsAppStatus :=
  ⟨s.getD "disconnected", t.getD "0", a.getD false, r.getD false, i.getD false⟩

/-- The command `get_whatsapp_status`: takes the state of `status.txt` and the current cache,
returns the command result and the cache after the call. -/
def get_whatsapp_status (file : StatusFileState) (cache : WhatsAppStatus) :
    Except String WhatsAppStatus × WhatsAppStatus :=
  match file with
  | StatusFileState.absent => (Except.ok defaultDisconnectedStatus, cache)
  | StatusFileState.readError => (Except.error "Failed to read status file", cache)
  | StatusFileState.malformed => (Except.error "Failed to parse status JSON", cache)
  | StatusFileState.parsed s t a r i =>
    let v := extractStatusFields s t a r i
    (Except.ok v, v)

/-! ## The outbound dispatcher (`send_whatsapp_message`)

After the precondition check the dispatcher removes a stale `message_error.txt`,
writes `message.json`, and runs

    while message_path.exists() && start.elapsed() < 5 s {
        sleep(100 ms);
        if error_path.exists() { read; remove; return Err(content) }
    }
    if message_path.exists() { remove; return Err(timeout) }
    return Ok

Every filesystem observation (an `exists()` or a read) consumes one index of an
observation trace `env : Nat → FsObs`; index 0 is the stale-error check before
`message.json` is written, index 1 is the first loop-condition check after the
write.  The sleep is 100 ms and the deadline 5 s, so the loop body runs at most
50 times (fuel 50).  Writes and deletions performed by the call are returned as an
action list in program order. -/

/-- One filesystem observation during dispatch: does `message.json` exist, and what
does `message_error.txt` hold (`none` = absent). -/
structure FsObs where
  messageExists : Bool
  errorContent : Option String
deriving DecidableEq

/-- Result of `send_whatsapp_message`.  The Rust code returns `Result<(), String>`;
the constructors carry the distinguishing payloads of the corresponding
return sites (`errNotConnected` carries the cached status string interpolated into
the message, `errService` the error artifact's content; the timeout message is the
fixed string "Timeout while sending message"). -/
inductive SendResult where
  | ok
  | errNotConnected (status : String)
  | errService (content : String)
  | errTimeout
deriving DecidableEq

/-- A filesystem mutation performed by the dispatcher. -/
inductive FsAction where
  | removeError
  | writeMessage (phoneNumber message : String)
  | removeMessage
deriving DecidableEq

/-- Phone-number normalization in `send_whatsapp_message`: keep ASCII digits only. -/
def normalizePhone (s : String) : String :=
  String.mk (s.data.filter Char.isDigit)

/-- The check after the wait loop: if `message.json` still exists, delete it and
fail with the timeout error; otherwise succeed. -/
def postTimeoutCheck (env : Nat → FsObs) (i : Nat) : SendResult × List FsAction :=
  if (env i).messageExists then (SendResult.errTimeout, [FsAction.removeMessage])
  else (SendResult.ok, [])

/-- The dispatcher's wait loop.  One iteration: the loop condition observes
`message.json` at index `i` (and the elapsed-time bound, modelled by `fuel`);
if it holds, the thread sleeps and then observes `message_error.txt` at index
`i + 1`.  When the loop exits (file gone or deadline), `message.json` is observed
once more by the post-loop check. -/
def waitLoop (env : Nat → FsObs) : Nat → Nat → SendResult × List FsAction
  | 0, i => postTimeoutCheck env (i + 1)
  | fuel + 1, i =>
    if (env i).messageExists then
      match (env (i + 1)).errorContent with
      | some e => (SendResult.errService e, [FsAction.removeError])
      | none => waitLoop env fuel (i + 2)
    else postTimeoutCheck env (i + 1)

/-- The command `send_whatsapp_message`: `cached` is the value read from the shared cache at
entry, `env` the observation trace (index 0 = the stale-error existence check).
Returns the result and the list of filesystem mutations in program order. -/
def send_whatsapp_message (cached : WhatsAppStatus) (phoneNumber message : String)
    (env : Nat → FsObs) : SendResult × List FsAction :=
  if !cached.is_authenticated || !cached.is_client_ready then
    (SendResult.errNotConnected cached.status, [])
  else
    ((waitLoop env 50 1).1,
     (if (env 0).errorContent ≠ none then [FsAction.removeError] else []) ++
       FsAction.writeMessage (normalizePhone phoneNumber) message :: (waitLoop env 50 1).2)

/-! ## The listener pollers (`listen_whatsapp_messages`)

Registration writes `listeners.json` and spawns a thread with a local
`last_check := SystemTime::now()`.  Every 500 ms the thread stats
`received_<id>.json`; on a metadata error it does nothing.  If the modification
time is strictly newer than `last_check` it reads and parses the file, on success
emits a `whatsapp-message-received` event and deletes the file, and in every
newer-mtime case (also when the read or the parse failed) sets
`last_check := SystemTime::now()`. -/

/-- Observable state of an inbound file in one poll cycle: its modification time
(`none` = `fs::metadata` failed, i.e. the file is missing) and the read/parse
result of its content (`none` = read or parse failure). -/
structure InboundFileObs where
  mtime : Option Nat
  parsed : Option WhatsAppReceivedMessage
deriving DecidableEq

/-- One listener poll cycle with its wall-clock time `now`. -/
structure ListenerObs where
  file : InboundFileObs
  now : Nat
deriving DecidableEq

/-- Outcome of one listener poll cycle. -/
structure ListenerCycleResult where
  lastCheck : Nat
  event : Option WhatsAppReceivedMessage
  deleted : Bool
deriving DecidableEq

/-- One poll cycle of a listener thread (`listen_whatsapp_messages`). -/
def listenerCycle (lastCheck : Nat) (file : InboundFileObs) (now : Nat) :
    ListenerCycleResult :=
  match file.mtime with
  | none => ⟨lastCheck, none, false⟩
  | some m =>
    if lastCheck < m then
      match file.parsed with
      | some msg => ⟨now, some msg, true⟩
      | none => ⟨now, none, false⟩
    else ⟨lastCheck, none, false⟩

/-- A run of a listener poller over a finite observation trace, returning the
emitted events each paired with the modification time that triggered it. -/
def listenerEmits (lastCheck : Nat) : List ListenerObs → List (Nat × WhatsAppReceivedMessage)
  | [] => []
  | o :: rest =>
    match (listenerCycle lastCheck o.file o.now).event with
    | some msg =>
      (o.file.mtime.getD 0, msg) ::
        listenerEmits (listenerCycle lastCheck o.file o.now).lastCheck rest
    | none => listenerEmits (listenerCycle lastCheck o.file o.now).lastCheck rest

/-- The inbound file a listener with the given id watches:
`format!("received_{}.json", id)`. -/
def receivedFileName (id : String) : String :=
  "received_" ++ id ++ ".json"

/-- One listener poll cycle expressed against a whole-directory view
`fs : path → file state`: the listener only ever consults its own path. -/
def listenerCycleFs (id : String) (lastCheck : Nat) (fs : String → InboundFileObs)
    (now : Nat) : ListenerCycleResult :=
  listenerCycle lastCheck (fs (receivedFileName id)) now

/-- Updating the directory view at one path (the effect of placing or rewriting
one file). -/
def updateFs (fs : String → InboundFileObs) (path : String) (v : InboundFileObs) :
    String → InboundFileObs :=
  fun q => if q = path then v else fs q

/-- The spec's SessionStatus invariant: status `"ready"` implies
`is_client_ready && is_authenticated`. -/
def statusInvariant (v : WhatsAppStatus) : Prop :=
  v.status = "ready" → v.is_client_ready = true ∧ v.is_authenticated = true

instance (v : WhatsAppStatus) : Decidable (statusInvariant v) := by
  unfold statusInvariant
  infer_instance

/-! ## Helper lemmas -/

lemma statusEvents_append (l1 l2 : List MonitorEvent) :
    statusEvents (l1 ++ l2) = statusEvents l1 ++ statusEvents l2 := by
  simp [statusEvents]

lemma monitorQrStep_spec (st : MonitorState) (q : Option String) :
    (monitorQrStep st q).1.cache = st.cache ∧
    (monitorQrStep st q).1.lastStatus = st.lastStatus ∧
    statusEvents (monitorQrStep st q).2 = [] := by
  cases q with
  | none => exact ⟨rfl, rfl, rfl⟩
  | some q =>
    by_cases h : q.trim ≠ st.lastQr
    · simp [monitorQrStep, h, statusEvents]
    · simp [monitorQrStep, h, statusEvents]

/-! Environment assumptions for the dispatch wait loop, holding from index 1 on
(the observations after the dispatcher has written `message.json`): the external
service may delete the request file (never recreate it), and may write the error
artifact once (never retract it, and only while the request file is present).
The three chain lemmas below propagate them along the trace. -/

lemma msg_mono_le (env : Nat → FsObs)
    (hm : ∀ i, 1 ≤ i → (env i).messageExists = false → (env (i + 1)).messageExists = false)
    (i j : Nat) (hi : 1 ≤ i) (hij : i ≤ j)
    (h : (env i).messageExists = false) : (env j).messageExists = false := by
  induction j, hij using Nat.le_induction with
  | base => exact h
  | succ n hn ihn => exact hm n (le_trans hi hn) ihn

lemma err_mono_le (env : Nat → FsObs)
    (he : ∀ i e, 1 ≤ i → (env i).errorContent = some e → (env (i + 1)).errorContent = some e)
    (i j : Nat) (e : String) (hi : 1 ≤ i) (hij : i ≤ j)
    (h : (env i).errorContent = some e) : (env j).errorContent = some e := by
  induction j, hij using Nat.le_induction with
  | base => exact h
  | succ n hn ihn => exact he n e (le_trans hi hn) ihn

lemma msg_true_of_err (env : Nat → FsObs)
    (hm : ∀ i, 1 ≤ i → (env i).messageExists = false → (env (i + 1)).messageExists = false)
    (he : ∀ i e, 1 ≤ i → (env i).errorContent = some e → (env (i + 1)).errorContent = some e)
    (hx : ∀ i, 1 ≤ i → (env i).errorContent ≠ none → (env i).messageExists = true)
    (j : Nat) (e : String) (hj : 1 ≤ j) (hje : (env j).errorContent = some e)
    (k : Nat) (hk : 1 ≤ k) : (env k).messageExists = true := by
  by_contra hcon
  have hkf : (env k).messageExists = false := by
    cases hmsg : (env k).messageExists
    · rfl
    · exact absurd hmsg hcon
  have h1 : (env (max j k)).errorContent = some e :=
    err_mono_le env he j (max j k) e hj (le_max_left _ _) hje
  have h2 : (env (max j k)).messageExists = false :=
    msg_mono_le env hm k (max j k) hk (le_max_right _ _) hkf
  have h3 := hx (max j k) (le_trans hj (le_max_left _ _)) (by rw [h1]; simp)
  rw [h2] at h3
  exact Bool.false_ne_true h3

lemma receivedFileName_inj {a b : String} (h : receivedFileName a = receivedFileName b) :
    a = b := by
  unfold receivedFileName at h
  have hd : ("received_" ++ a ++ ".json").data = ("received_" ++ b ++ ".json").data := by
    rw [h]
  rw [String.data_append, String.data_append, String.data_append, String.data_append,
    List.append_assoc, List.append_assoc] at hd
  have h2 := List.append_cancel_left hd
  have h3 := List.append_cancel_right h2
  exact String.ext h3

/-- Characterization of the wait loop over a protocol-conformant trace: starting at
index `i` with `fuel` iterations left, the result is `ok` exactly when the request
file is observed gone at the final reachable observation index `i + 2*fuel + 1`,
and `errService e` exactly when the error artifact holds `e` at the last
error-check index `i + 2*fuel - 1` (monotonicity transports both facts to the
index at which the loop actually decides). -/
lemma waitLoop_spec (env : Nat → FsObs)
    (hm : ∀ i, 1 ≤ i → (env i).messageExists = false → (env (i + 1)).messageExists = false)
    (he : ∀ i e, 1 ≤ i → (env i).errorContent = some e → (env (i + 1)).errorContent = some e)
    (hx : ∀ i, 1 ≤ i → (env i).errorContent ≠ none → (env i).messageExists = true) :
    ∀ fuel i, 1 ≤ i →
      ((waitLoop env fuel i).1 = SendResult.ok ↔
        (env (i + 2 * fuel + 1)).messageExists = false) ∧
      (∀ e, (waitLoop env fuel i).1 = SendResult.errService e ↔
        (1 ≤ fuel ∧ (env (i + 2 * fuel - 1)).errorContent = some e)) := by
  intro fuel
  induction fuel with
  | zero =>
    intro i hi
    have hidx : i + 2 * 0 + 1 = i + 1 := by omega
    rw [hidx]
    constructor
    · show (postTimeoutCheck env (i + 1)).1 = SendResult.ok ↔ _
      unfold postTimeoutCheck
      by_cases h : (env (i + 1)).messageExists = true
      · rw [if_pos h]
        simp [h]
      · have h' : (env (i + 1)).messageExists = false := by
          cases hb : (env (i + 1)).messageExists
          · rfl
          · exact absurd hb h
        rw [if_neg h]
        simp [h']
    · intro e
      show (postTimeoutCheck env (i + 1)).1 = SendResult.errService e ↔ _
      unfold postTimeoutCheck
      constructor
      · intro hres
        split at hres <;> simp_all
      · rintro ⟨h0, -⟩
        omega
  | succ fuel ih =>
    intro i hi
    by_cases h1 : (env i).messageExists = true
    · cases h2 : (env (i + 1)).errorContent with
      | some e0 =>
        have hres : waitLoop env (fuel + 1) i =
            (SendResult.errService e0, [FsAction.removeError]) := by
          simp [waitLoop, h1, h2]
        have hmsgall := msg_true_of_err env hm he hx (i + 1) e0 (by omega) h2
        constructor
        · rw [hres]
          simp [hmsgall (i + 2 * (fuel + 1) + 1) (by omega)]
        · intro e
          have hpersist : (env (i + 2 * (fuel + 1) - 1)).errorContent = some e0 :=
            err_mono_le env he (i + 1) (i + 2 * (fuel + 1) - 1) e0 (by omega) (by omega) h2
          rw [hres]
          constructor
          · intro hq
            rw [SendResult.errService.injEq] at hq
            subst hq
            exact ⟨by omega, hpersist⟩
          · rintro ⟨-, hee⟩
            rw [hpersist] at hee
            rw [SendResult.errService.injEq]
            injection hee with h3
      | none =>
        have hres : waitLoop env (fuel + 1) i = waitLoop env fuel (i + 2) := by
          simp [waitLoop, h1, h2]
        obtain ⟨iha, ihb⟩ := ih (i + 2) (by omega)
        constructor
        · have hidx : i + 2 + 2 * fuel + 1 = i + 2 * (fuel + 1) + 1 := by omega
          rw [hidx] at iha
          rw [hres]
          exact iha
        · intro e
          have ihb' := ihb e
          rw [hres]
          rcases Nat.eq_zero_or_pos fuel with hf | hf
          · subst hf
            constructor
            · intro hq
              exact absurd ((ihb'.mp hq).1) (by omega)
            · rintro ⟨-, hee⟩
              have hidx : i + 2 * (0 + 1) - 1 = i + 1 := by omega
              rw [hidx, h2] at hee
              exact Option.noConfusion hee
          · have hidx : i + 2 + 2 * fuel - 1 = i + 2 * (fuel + 1) - 1 := by omega
            rw [hidx] at ihb'
            rw [ihb']
            constructor
            · rintro ⟨-, hq⟩
              exact ⟨by omega, hq⟩
            · rintro ⟨-, hq⟩
              exact ⟨hf, hq⟩
    · have h1' : (env i).messageExists = false := by
        cases hb : (env i).messageExists
        · rfl
        · exact absurd hb h1
      have hmsg_later : ∀ j, i ≤ j → (env j).messageExists = false :=
        fun j hj => msg_mono_le env hm i j hi hj h1'
      have hres : waitLoop env (fuel + 1) i = (SendResult.ok, []) := by
        simp [waitLoop, h1', postTimeoutCheck, hmsg_later (i + 1) (by omega)]
      constructor
      · rw [hres]
        simp [hmsg_later (i + 2 * (fuel + 1) + 1) (by omega)]
      · intro e
        rw [hres]
        constructor
        · intro hq
          exact absurd hq (by simp)
        · rintro ⟨-, hee⟩
          have := msg_true_of_err env hm he hx (i + 2 * (fuel + 1) - 1) e (by omega) hee i hi
          rw [h1'] at this
          exact (Bool.false_ne_true this).elim

/-- The wait loop returns only `ok`, `errService` or `errTimeout`. -/
lemma waitLoop_result (env : Nat → FsObs) :
    ∀ fuel i, (waitLoop env fuel i).1 = SendResult.ok ∨
      (∃ e, (waitLoop env fuel i).1 = SendResult.errService e) ∨
      (waitLoop env fuel i).1 = SendResult.errTimeout := by
  intro fuel
  induction fuel with
  | zero =>
    intro i
    have hres : waitLoop env 0 i = postTimeoutCheck env (i + 1) := rfl
    rw [hres]
    unfold postTimeoutCheck
    by_cases h : (env (i + 1)).messageExists = true
    · rw [if_pos h]
      right; right; rfl
    · rw [if_neg h]
      left; rfl
  | succ fuel ih =>
    intro i
    by_cases h1 : (env i).messageExists = true
    · cases h2 : (env (i + 1)).errorContent with
      | some e0 =>
        right; left
        exact ⟨e0, by simp [waitLoop, h1, h2]⟩
      | none =>
        have hres : waitLoop env (fuel + 1) i = waitLoop env fuel (i + 2) := by
          simp [waitLoop, h1, h2]
        rw [hres]
        exact ih (i + 2)
    · have h1' : (env i).messageExists = false := by
        cases hb : (env i).messageExists
        · rfl
        · exact absurd hb h1
      have hres : waitLoop env (fuel + 1) i = postTimeoutCheck env (i + 1) := by
        simp [waitLoop, h1']
      rw [hres]
      unfold postTimeoutCheck
      by_cases h : (env (i + 1)).messageExists = true
      · rw [if_pos h]
        right; right; rfl
      · rw [if_neg h]
        left; rfl

/-- The filesystem actions the wait loop performs, by outcome: none on success,
one error-artifact deletion on a service error, one request-file deletion on
timeout. -/
lemma waitLoop_actions (env : Nat → FsObs) :
    ∀ fuel i,
      ((waitLoop env fuel i).1 = SendResult.ok → (waitLoop env fuel i).2 = []) ∧
      (∀ e, (waitLoop env fuel i).1 = SendResult.errService e →
        (waitLoop env fuel i).2 = [FsAction.removeError]) ∧
      ((waitLoop env fuel i).1 = SendResult.errTimeout →
        (waitLoop env fuel i).2 = [FsAction.removeMessage]) := by
  intro fuel
  induction fuel with
  | zero =>
    intro i
    have hres : waitLoop env 0 i = postTimeoutCheck env (i + 1) := rfl
    rw [hres]
    unfold postTimeoutCheck
    by_cases h : (env (i + 1)).messageExists = true
    · rw [if_pos h]
      refine ⟨fun hq => absurd hq (by simp), fun e hq => absurd hq (by simp), fun _ => rfl⟩
    · rw [if_neg h]
      refine ⟨fun _ => rfl, fun e hq => absurd hq (by simp), fun hq => absurd hq (by simp)⟩
  | succ fuel ih =>
    intro i
    by_cases h1 : (env i).messageExists = true
    · cases h2 : (env (i + 1)).errorContent with
      | some e0 =>
        have hres : waitLoop env (fuel + 1) i =
            (SendResult.errService e0, [FsAction.removeError]) := by
          simp [waitLoop, h1, h2]
        rw [hres]
        refine ⟨fun hq => absurd hq (by simp), fun e _ => rfl, fun hq => absurd hq (by simp)⟩
      | none =>
        have hres : waitLoop env (fuel + 1) i = waitLoop env fuel (i + 2) := by
          simp [waitLoop, h1, h2]
        rw [hres]
        exact ih (i + 2)
    · have h1' : (env i).messageExists = false := by
        cases hb : (env i).messageExists
        · rfl
        · exact absurd hb h1
      have hres : waitLoop env (fuel + 1) i = postTimeoutCheck env (i + 1) := by
        simp [waitLoop, h1']
      rw [hres]
      unfold postTimeoutCheck
      by_cases h : (env (i + 1)).messageExists = true
      · rw [if_pos h]
        refine ⟨fun hq => absurd hq (by simp), fun e hq => absurd hq (by simp), fun _ => rfl⟩
      · rw [if_neg h]
        refine ⟨fun _ => rfl, fun e hq => absurd hq (by simp), fun hq => absurd hq (by simp)⟩

/-- Unfolding of `send_whatsapp_message` when the precondition holds. -/
lemma send_connected_eq (cached : WhatsAppStatus) (pn m : String) (env : Nat → FsObs)
    (h1 : cached.is_authenticated = true) (h2 : cached.is_client_ready = true) :
    send_whatsapp_message cached pn m env =
      ((waitLoop env 50 1).1,
       (if (env 0).errorContent ≠ none then [FsAction.removeError] else []) ++
         FsAction.writeMessage (normalizePhone pn) m :: (waitLoop env 50 1).2) := by
  simp [send_whatsapp_message, h1, h2]

/-! ## Claim theorems -/

/-- C10: when `status.txt` does not exist, `get_whatsapp_status` returns success
with the default value {status: "disconnected", timestamp: "0", all flags false}
rather than an error, and the shared session cache is left unchanged. -/
theorem get_status_missing_file_default (c : WhatsAppStatus) :
    get_whatsapp_status StatusFileState.absent c =
      (Except.ok ⟨"disconnected", "0", false, false, false⟩, c) :=
  rfl

/-- C4: a dispatch call made while the cached session does not report
`is_authenticated && is_client_ready` fails immediately with the "not connected"
error and performs no filesystem mutation at all (empty action list — in
particular no request file is written). -/
theorem send_not_connected_writes_nothing (cached : WhatsAppStatus)
    (pn m : String) (env : Nat → FsObs)
    (h : cached.is_authenticated = false ∨ cached.is_client_ready = false) :
    send_whatsapp_message cached pn m env =
      (SendResult.errNotConnected cached.status, []) := by
  unfold send_whatsapp_message
  rcases h with h | h <;> simp [h]

/-- Witness for C4: a concrete disconnected cache value. -/
theorem send_not_connected_writes_nothing_witness :
    send_whatsapp_message ⟨"disconnected", "0", false, false, false⟩
        "15551234567" "hi" (fun _ => ⟨false, none⟩) =
      (SendResult.errNotConnected "disconnected", []) :=
  send_not_connected_writes_nothing _ _ _ _ (Or.inl rfl)

/-- C3, counterexample: the synchronous status query is not a pure cache read.
With the cache holding a "ready" value and `status.txt` parsing to a
"disconnected" value, the call both returns something other than the cached
value and overwrites the cache. -/
theorem get_status_mutates_cache_counterexample :
    (get_whatsapp_status
        (StatusFileState.parsed (some "disconnected") (some "9")
          (some false) (some false) (some false))
        ⟨"ready", "1", true, true, false⟩).2 ≠ ⟨"ready", "1", true, true, false⟩ ∧
    (get_whatsapp_status
        (StatusFileState.parsed (some "disconnected") (some "9")
          (some false) (some false) (some false))
        ⟨"ready", "1", true, true, false⟩).1 =
      Except.ok ⟨"disconnected", "9", false, false, false⟩ ∧
    (⟨"disconnected", "9", false, false, false⟩ : WhatsAppStatus) ≠
      ⟨"ready", "1", true, true, false⟩ :=
  ⟨by decide, rfl, by decide⟩

/-- C3, amended: `get_whatsapp_status` reads `status.txt` on every call.  When the
file is absent it returns the default without touching the cache; read and parse
failures are surfaced as errors with the cache unchanged; when the file parses,
the call overwrites the cache with the extracted value and returns that value —
so the synchronous status query does mutate the cache. -/
theorem get_status_characterization (c : WhatsAppStatus) :
    get_whatsapp_status StatusFileState.absent c =
        (Except.ok defaultDisconnectedStatus, c) ∧
    get_whatsapp_status StatusFileState.readError c =
        (Except.error "Failed to read status file", c) ∧
    get_whatsapp_status StatusFileState.malformed c =
        (Except.error "Failed to parse status JSON", c) ∧
    ∀ s t a r i, get_whatsapp_status (StatusFileState.parsed s t a r i) c =
        (Except.ok (extractStatusFields s t a r i), extractStatusFields s t a r i) :=
  ⟨rfl, rfl, rfl, fun _ _ _ _ _ => rfl⟩

/-- C5, counterexample: the monitor stores parsed file content unchecked, so a
`status.txt` claiming "ready" with both readiness flags false is stored into the
cache as-is, violating the invariant `ready → is_client_ready && is_authenticated`.
The run starts from the monitor's true initial state. -/
theorem cache_invariant_violation_counterexample :
    ((monitorRun (monitorInitState "t0")
        [(some ⟨"ready", "1", false, false, false⟩, none)]).1.cache
      = ⟨"ready", "1", false, false, false⟩) ∧
    ¬ statusInvariant ⟨"ready", "1", false, false, false⟩ := by
  decide

/-- C2, counterexample: the monitor dedups on the `status` field only.  Observing
the valid value {"ready", timestamp "1"} and then the distinct valid value
{"ready", timestamp "2"}, the cache after the second cycle still holds the first
value (not the parsed one) and only one status-changed event was emitted for the
two distinct values. -/
theorem monitor_cache_not_parsed_counterexample :
    ((monitorRun (monitorInitState "t0")
        [(some ⟨"ready", "1", true, true, false⟩, none),
         (some ⟨"ready", "2", true, true, false⟩, none)]).1.cache
      = ⟨"ready", "1", true, true, false⟩) ∧
    ((⟨"ready", "1", true, true, false⟩ : WhatsAppStatus) ≠
      ⟨"ready", "2", true, true, false⟩) ∧
    statusEvents ((monitorRun (monitorInitState "t0")
        [(some ⟨"ready", "1", true, true, false⟩, none),
         (some ⟨"ready", "2", true, true, false⟩, none)]).2)
      = [⟨"ready", "1", true, true, false⟩] := by
  decide

/-- C2, amended: the monitor dedups and updates the cache keyed on the `status`
field, not on the whole value.  Over any observation trace, the status-changed
events are exactly the subsequence of successfully parsed values at which the
`status` field changes relative to the last emitted one (so one event per
status-field transition and none for repeated identical values), and the cache
equals the last such emitted value (the initial cache value if none). -/
theorem monitor_events_dedup_by_status_field :
    ∀ (trace : List (Option WhatsAppStatus × Option String)) (st : MonitorState),
      statusEvents (monitorRun st trace).2 =
          statusDedupSpec st.lastStatus (trace.filterMap Prod.fst) ∧
      (monitorRun st trace).1.cache =
          (statusDedupSpec st.lastStatus (trace.filterMap Prod.fst)).getLastD st.cache ∧
      (monitorRun st trace).1.lastStatus =
          ((statusDedupSpec st.lastStatus (trace.filterMap Prod.fst)).map
              WhatsAppStatus.status).getLastD st.lastStatus := by
  intro trace
  induction trace with
  | nil => exact fun st => ⟨rfl, rfl, rfl⟩
  | cons o rest ih =>
    intro st
    obtain ⟨sObs, qObs⟩ := o
    obtain ⟨hqc, hql, hqe⟩ := monitorQrStep_spec (monitorStatusStep st sObs).1 qObs
    obtain ⟨ih1, ih2, ih3⟩ := ih (monitorCycle st (sObs, qObs)).1
    have hcyc1 : (monitorCycle st (sObs, qObs)).1 =
        (monitorQrStep (monitorStatusStep st sObs).1 qObs).1 := rfl
    have hev : statusEvents (monitorRun st ((sObs, qObs) :: rest)).2 =
        statusEvents (monitorStatusStep st sObs).2 ++
          statusEvents (monitorRun (monitorCycle st (sObs, qObs)).1 rest).2 := by
      show statusEvents ((monitorCycle st (sObs, qObs)).2 ++
          (monitorRun (monitorCycle st (sObs, qObs)).1 rest).2) = _
      rw [statusEvents_append]
      show statusEvents ((monitorStatusStep st sObs).2 ++
          (monitorQrStep (monitorStatusStep st sObs).1 qObs).2) ++ _ = _
      rw [statusEvents_append, hqe, List.append_nil]
    cases sObs with
    | none =>
      refine ⟨?_, ?_, ?_⟩
      · rw [hev, ih1, hcyc1, hql]
        rfl
      · show (monitorRun (monitorCycle st (none, qObs)).1 rest).1.cache = _
        rw [ih2, hcyc1, hql, hqc]
        rfl
      · show (monitorRun (monitorCycle st (none, qObs)).1 rest).1.lastStatus = _
        rw [ih3, hcyc1, hql]
        rfl
    | some sd =>
      have hfm : (((some sd, qObs) :: rest).filterMap Prod.fst :
          List WhatsAppStatus) = sd :: rest.filterMap Prod.fst := by
        simp
      by_cases h : sd.status ≠ st.lastStatus
      · have hst : monitorStatusStep st (some sd) =
            ({ st with lastStatus := sd.status, cache := sd },
             [MonitorEvent.statusChanged sd]) := by
          simp [monitorStatusStep, h]
        have hded : statusDedupSpec st.lastStatus (sd :: rest.filterMap Prod.fst) =
            sd :: statusDedupSpec sd.status (rest.filterMap Prod.fst) := by
          simp [statusDedupSpec, h]
        refine ⟨?_, ?_, ?_⟩
        · rw [hev, ih1, hcyc1, hql, hst, hfm, hded]
          rfl
        · show (monitorRun (monitorCycle st (some sd, qObs)).1 rest).1.cache = _
          rw [ih2, hcyc1, hql, hqc, hst, hfm, hded, List.getLastD_cons]
        · show (monitorRun (monitorCycle st (some sd, qObs)).1 rest).1.lastStatus = _
          rw [ih3, hcyc1, hql, hst, hfm, hded, List.map_cons, List.getLastD_cons]
      · have hst : monitorStatusStep st (some sd) = (st, []) := by
          simp [monitorStatusStep, h]
        have hded : statusDedupSpec st.lastStatus (sd :: rest.filterMap Prod.fst) =
            statusDedupSpec st.lastStatus (rest.filterMap Prod.fst) := by
          simp [statusDedupSpec, h]
        refine ⟨?_, ?_, ?_⟩
        · rw [hev, ih1, hcyc1, hql, hst, hfm, hded]
          rfl
        · show (monitorRun (monitorCycle st (some sd, qObs)).1 rest).1.cache = _
          rw [ih2, hcyc1, hql, hqc, hst, hfm, hded]
        · show (monitorRun (monitorCycle st (some sd, qObs)).1 rest).1.lastStatus = _
          rw [ih3, hcyc1, hql, hst, hfm, hded]

/-- C8, counterexample: a listener poll that finds a newer modification time but
fails to parse the file advances `last_check` anyway, so the same file content is
never re-read: here the file is malformed at the first cycle and perfectly
parseable (same mtime) at the second, yet no event is ever emitted. -/
theorem listener_no_retry_counterexample :
    listenerEmits 0
        [⟨⟨some 5, none⟩, 10⟩,
         ⟨⟨some 5, some ⟨"15551234567", "me", false, "hi", "ts"⟩⟩, 20⟩] = [] ∧
    (listenerCycle 0 ⟨some 5, none⟩ 10).lastCheck = 10 := by
  decide

/-- C8, amended: the Monitor treats a missing file, a read failure or malformed
JSON as "no change" (no event, state untouched, same read retried next cycle);
a listener poller likewise skips a cycle in which `fs::metadata` fails; but a
listener read/parse failure on a file with a newer modification time advances
`last_check` to the current time (no event, no deletion), so that file is not
re-read on later cycles unless rewritten with a strictly newer mtime. -/
theorem poller_transient_failure_behavior :
    (∀ st : MonitorState, monitorStatusStep st none = (st, [])) ∧
    (∀ st : MonitorState, monitorCycle st (none, none) = (st, [])) ∧
    (∀ (lc now : Nat) (p : Option WhatsAppReceivedMessage),
        listenerCycle lc ⟨none, p⟩ now = ⟨lc, none, false⟩) ∧
    (∀ lc m now : Nat, lc < m →
        listenerCycle lc ⟨some m, none⟩ now = ⟨now, none, false⟩) := by
  refine ⟨fun st => rfl, fun st => rfl, fun lc now p => rfl, fun lc m now h => ?_⟩
  simp [listenerCycle, h]

/-- Witness for C8's amended theorem at concrete inputs. -/
theorem poller_transient_failure_behavior_witness :
    listenerCycle 0 ⟨some 5, none⟩ 7 = ⟨7, none, false⟩ :=
  poller_transient_failure_behavior.2.2.2 0 5 7 (by decide)

/-- C1: outcome trichotomy of dispatch, for calls whose precondition holds, over a
protocol-conformant observation trace (from index 1 on: the service never
recreates the request file, never retracts the error artifact once written, and
writes the artifact only while the request file is present).  The call succeeds
iff the request file is observed gone at some reachable observation (index ≤ 102,
the post-loop check ≈ the 5 s deadline); it fails with the artifact's content `e`
iff the artifact holds `e` by the last error check (index ≤ 100), in which case the
artifact is deleted after being read (last action `removeError`); it times out iff
neither occurs, and then the call's last filesystem action deletes the request
file. -/
theorem send_dispatch_outcome_trichotomy (cached : WhatsAppStatus)
    (pn msg : String) (env : Nat → FsObs)
    (hpre : cached.is_authenticated = true ∧ cached.is_client_ready = true)
    (hm : ∀ i, 1 ≤ i → (env i).messageExists = false → (env (i + 1)).messageExists = false)
    (he : ∀ i e, 1 ≤ i → (env i).errorContent = some e → (env (i + 1)).errorContent = some e)
    (hx : ∀ i, 1 ≤ i → (env i).errorContent ≠ none → (env i).messageExists = true) :
    ((send_whatsapp_message cached pn msg env).1 = SendResult.ok ↔
      ∃ j, 1 ≤ j ∧ j ≤ 102 ∧ (env j).messageExists = false) ∧
    (∀ e, (send_whatsapp_message cached pn msg env).1 = SendResult.errService e ↔
      ∃ j, 2 ≤ j ∧ j ≤ 100 ∧ (env j).errorContent = some e) ∧
    (∀ e, (send_whatsapp_message cached pn msg env).1 = SendResult.errService e →
      (send_whatsapp_message cached pn msg env).2.getLast? = some FsAction.removeError) ∧
    ((send_whatsapp_message cached pn msg env).1 = SendResult.errTimeout ↔
      ((∀ j, 1 ≤ j → j ≤ 102 → (env j).messageExists = true) ∧
       (∀ j, 2 ≤ j → j ≤ 100 → (env j).errorContent = none))) ∧
    ((send_whatsapp_message cached pn msg env).1 = SendResult.errTimeout →
      (send_whatsapp_message cached pn msg env).2.getLast? = some FsAction.removeMessage) := by
  have hsend := send_connected_eq cached pn msg env hpre.1 hpre.2
  obtain ⟨hok, herr⟩ := waitLoop_spec env hm he hx 50 1 (by omega)
  rw [show (1 : Nat) + 2 * 50 + 1 = 102 from by norm_num] at hok
  simp only [show (1 : Nat) + 2 * 50 - 1 = 100 from by norm_num] at herr
  have hokex : (env 102).messageExists = false ↔
      ∃ j, 1 ≤ j ∧ j ≤ 102 ∧ (env j).messageExists = false := by
    constructor
    · intro h
      exact ⟨102, by omega, by omega, h⟩
    · rintro ⟨j, hj1, hj2, hjf⟩
      exact msg_mono_le env hm j 102 hj1 hj2 hjf
  have herrex : ∀ e, (env 100).errorContent = some e ↔
      ∃ j, 2 ≤ j ∧ j ≤ 100 ∧ (env j).errorContent = some e := by
    intro e
    constructor
    · intro h
      exact ⟨100, by omega, by omega, h⟩
    · rintro ⟨j, hj1, hj2, hje⟩
      exact err_mono_le env he j 100 e (by omega) hj2 hje
  refine ⟨?_, ?_, ?_, ?_, ?_⟩
  · rw [hsend]
    exact hok.trans hokex
  · intro e
    rw [hsend]
    exact (herr e).trans
      ⟨fun h => (herrex e).mp h.2, fun h => ⟨by omega, (herrex e).mpr h⟩⟩
  · intro e hres
    rw [hsend] at hres ⊢
    have ha := (waitLoop_actions env 50 1).2.1 e hres
    rw [ha]
    by_cases h0 : (env 0).errorContent ≠ none
    · rw [if_pos h0]
      rfl
    · rw [if_neg h0]
      rfl
  · rw [hsend]
    constructor
    · intro ht
      have hno : ¬ (waitLoop env 50 1).1 = SendResult.ok := by
        rw [ht]
        simp
      have hne : ∀ e, ¬ (waitLoop env 50 1).1 = SendResult.errService e := by
        intro e
        rw [ht]
        simp
      constructor
      · intro j hj1 hj2
        by_contra hcon
        have hf : (env j).messageExists = false := by
          cases hb : (env j).messageExists
          · rfl
          · exact absurd hb hcon
        exact hno (hok.mpr (msg_mono_le env hm j 102 hj1 hj2 hf))
      · intro j hj1 hj2
        cases hcE : (env j).errorContent with
        | none => rfl
        | some e =>
          exact absurd ((herr e).mpr ⟨by omega,
            err_mono_le env he j 100 e (by omega) hj2 hcE⟩) (hne e)
    · rintro ⟨hmsg, herr0⟩
      rcases waitLoop_result env 50 1 with hr | ⟨e, hr⟩ | hr
      · have := hok.mp hr
        rw [hmsg 102 (by omega) (by omega)] at this
        exact absurd this (by simp)
      · have := ((herr e).mp hr).2
        rw [herr0 100 (by omega) (by omega)] at this
        exact Option.noConfusion this
      · exact hr
  · intro ht
    rw [hsend] at ht ⊢
    have ha := (waitLoop_actions env 50 1).2.2 ht
    rw [ha]
    by_cases h0 : (env 0).errorContent ≠ none
    · rw [if_pos h0]
      rfl
    · rw [if_neg h0]
      rfl

/-- Witness for C1: a conformant trace in which the service removes the request
file at observation index 4; the dispatch call returns success. -/
theorem send_dispatch_outcome_trichotomy_witness :
    (send_whatsapp_message ⟨"ready", "1", true, true, false⟩ "321" "hello"
        (fun i => if i ≤ 3 then ⟨true, none⟩ else ⟨false, none⟩)).1 = SendResult.ok :=
  (send_dispatch_outcome_trichotomy ⟨"ready", "1", true, true, false⟩ "321" "hello"
      (fun i => if i ≤ 3 then ⟨true, none⟩ else ⟨false, none⟩) ⟨rfl, rfl⟩
      (by
        intro i hi h
        by_cases hc : i + 1 ≤ 3
        · have hc' : i ≤ 3 := by omega
          simp [hc'] at h
        · simp [hc])
      (by
        intro i e hi h
        by_cases hc : i ≤ 3 <;> simp [hc] at h)
      (by
        intro i hi h
        by_cases hc : i ≤ 3 <;> simp [hc] at h)).1.mpr
    ⟨4, by omega, by omega, by decide⟩

/-- C9, counterexample: if the external service deletes the request file and
writes the error artifact during the same 100 ms sleep (both visible at
observation index 2, the first error check), the call returns the error — not
success — because the error check after the sleep does not recheck the request
file.  This refutes the claim that the call returns success whenever both events
happen before the next poll. -/
theorem error_after_removal_returns_error_counterexample :
    (send_whatsapp_message ⟨"ready", "1", true, true, false⟩ "321" "hi"
        (fun i => if i = 2 then ⟨false, some "boom"⟩ else ⟨true, none⟩)).1 =
      SendResult.errService "boom" ∧
    ((fun i => if i = 2 then (⟨false, some "boom"⟩ : FsObs) else ⟨true, none⟩) 2
        : FsObs).messageExists = false := by
  constructor
  · rfl
  · rfl

/-- C9, amended: the wait loop checks the request file before each sleep and the
error artifact after it; when both the request-file deletion and the artifact
write land within one sleep the call returns the error (see the counterexample),
and whenever the call returns success the loop has never read or deleted the
error artifact — the call's only filesystem actions are the stale-artifact
cleanup before the write and the write of `message.json` itself, so a
concurrently written artifact remains on disk for the next dispatch call's
stale-artifact cleanup. -/
theorem dispatch_success_leaves_error_artifact (cached : WhatsAppStatus)
    (pn m : String) (env : Nat → FsObs)
    (hpre : cached.is_authenticated = true ∧ cached.is_client_ready = true)
    (hok : (send_whatsapp_message cached pn m env).1 = SendResult.ok) :
    (send_whatsapp_message cached pn m env).2 =
      (if (env 0).errorContent ≠ none then [FsAction.removeError] else []) ++
        [FsAction.writeMessage (normalizePhone pn) m] := by
  have hsend := send_connected_eq cached pn m env hpre.1 hpre.2
  rw [hsend] at hok ⊢
  have ha := (waitLoop_actions env 50 1).1 hok
  rw [ha]

/-- Witness for C9's amended theorem: a trace in which the service consumes the
request file before the first loop check; the call succeeds and its only actions
are the message write (no stale artifact at index 0, no artifact deletion). -/
theorem dispatch_success_leaves_error_artifact_witness :
    (send_whatsapp_message ⟨"ready", "1", true, true, false⟩ "321" "hi"
        (fun _ => ⟨false, none⟩)).2 =
      (if ((fun _ => (⟨false, none⟩ : FsObs)) 0).errorContent ≠ none then
          [FsAction.removeError] else []) ++
        [FsAction.writeMessage (normalizePhone "321") "hi"] :=
  dispatch_success_leaves_error_artifact ⟨"ready", "1", true, true, false⟩ "321" "hi"
    (fun _ => ⟨false, none⟩) ⟨rfl, rfl⟩ rfl

/-- C5, amended: the invariant `ready → is_client_ready && is_authenticated` holds
for the initializer's stored value, and is preserved by the monitor cycle and the
status query exactly when the parsed file value satisfies it — the code stores
parsed file content unchecked, so the invariant on the cache is conditional on the
external service writing invariant-satisfying files. -/
theorem cache_invariant_preservation :
    (∀ ts, statusInvariant (mainInitStatus ts)) ∧
    (∀ (st : MonitorState) (sObs : Option WhatsAppStatus) (qObs : Option String),
        statusInvariant st.cache → (∀ sd, sObs = some sd → statusInvariant sd) →
        statusInvariant ((monitorCycle st (sObs, qObs)).1.cache)) ∧
    (∀ (f : StatusFileState) (c : WhatsAppStatus),
        statusInvariant c →
        (∀ s t a r i, f = StatusFileState.parsed s t a r i →
            statusInvariant (extractStatusFields s t a r i)) →
        statusInvariant ((get_whatsapp_status f c).2)) := by
  refine ⟨?_, ?_, ?_⟩
  · intro ts h
    have h' : ("initializing" : String) = "ready" := h
    exact absurd h' (by decide)
  · intro st sObs qObs hc hs
    have hq := (monitorQrStep_spec (monitorStatusStep st sObs).1 qObs).1
    show statusInvariant ((monitorQrStep (monitorStatusStep st sObs).1 qObs).1.cache)
    rw [hq]
    cases sObs with
    | none => exact hc
    | some sd =>
      by_cases h : sd.status ≠ st.lastStatus
      · have hst : monitorStatusStep st (some sd) =
            ({ st with lastStatus := sd.status, cache := sd },
             [MonitorEvent.statusChanged sd]) := by
          simp [monitorStatusStep, h]
        rw [hst]
        exact hs sd rfl
      · have hst : monitorStatusStep st (some sd) = (st, []) := by
          simp [monitorStatusStep, h]
        rw [hst]
        exact hc
  · intro f c hc hp
    cases f with
    | absent => exact hc
    | readError => exact hc
    | malformed => exact hc
    | parsed s t a r i => exact hp s t a r i rfl

/-- Witness for C5's amended theorem: a monitor cycle observing an
invariant-satisfying "ready" value stores an invariant-satisfying cache. -/
theorem cache_invariant_preservation_witness :
    statusInvariant ((monitorCycle ⟨"", "", ⟨"initializing", "t", false, false, true⟩⟩
        (some ⟨"ready", "2", true, true, false⟩, none)).1.cache) :=
  cache_invariant_preservation.2.1 ⟨"", "", ⟨"initializing", "t", false, false, true⟩⟩
    (some ⟨"ready", "2", true, true, false⟩) none (by decide)
    (by
      intro sd h
      cases h
      decide)

/-- C6: over any run of a listener poller in which file modification times do not
lie in the future (`mtime ≤ now` at each poll), the emitted events carry strictly
increasing modification times — at most one event per mtime value, no second
event for a rewrite with an unchanged mtime, and a recurrence only for a strictly
newer mtime.  Every emitted mtime also exceeds the registration-time
`last_check`. -/
theorem listener_at_most_once_per_mtime :
    ∀ (obs : List ListenerObs) (lc : Nat),
      (∀ o ∈ obs, ∀ m, o.file.mtime = some m → m ≤ o.now) →
      List.Pairwise (fun a b => a.1 < b.1) (listenerEmits lc obs) ∧
      ∀ p ∈ listenerEmits lc obs, lc < p.1 := by
  intro obs
  induction obs with
  | nil =>
    intro lc _
    refine ⟨List.Pairwise.nil, ?_⟩
    intro p hp
    simp [listenerEmits] at hp
  | cons o rest ih =>
    intro lc ha
    have hao : ∀ m, o.file.mtime = some m → m ≤ o.now :=
      ha o (List.mem_cons_self o rest)
    have har : ∀ o' ∈ rest, ∀ m, o'.file.mtime = some m → m ≤ o'.now :=
      fun o' h => ha o' (List.mem_cons_of_mem o h)
    cases hmt : o.file.mtime with
    | none =>
      have hcyc : listenerCycle lc o.file o.now = ⟨lc, none, false⟩ := by
        simp [listenerCycle, hmt]
      have hemits : listenerEmits lc (o :: rest) = listenerEmits lc rest := by
        simp [listenerEmits, hcyc]
      rw [hemits]
      exact ih lc har
    | some m =>
      have hm_le : m ≤ o.now := hao m hmt
      by_cases hlt : lc < m
      · cases hp : o.file.parsed with
        | some msg =>
          have hcyc : listenerCycle lc o.file o.now = ⟨o.now, some msg, true⟩ := by
            simp [listenerCycle, hmt, hlt, hp]
          have hemits : listenerEmits lc (o :: rest) =
              (m, msg) :: listenerEmits o.now rest := by
            simp [listenerEmits, hcyc, hmt]
          obtain ⟨ihp, ihb⟩ := ih o.now har
          rw [hemits]
          refine ⟨List.Pairwise.cons ?_ ihp, ?_⟩
          · intro p hp'
            have := ihb p hp'
            omega
          · intro p hp'
            rcases List.mem_cons.mp hp' with h | h
            · rw [h]
              exact hlt
            · have := ihb p h
              omega
        | none =>
          have hcyc : listenerCycle lc o.file o.now = ⟨o.now, none, false⟩ := by
            simp [listenerCycle, hmt, hlt, hp]
          have hemits : listenerEmits lc (o :: rest) = listenerEmits o.now rest := by
            simp [listenerEmits, hcyc]
          obtain ⟨ihp, ihb⟩ := ih o.now har
          rw [hemits]
          refine ⟨ihp, ?_⟩
          intro p hp'
          have := ihb p hp'
          omega
      · have hcyc : listenerCycle lc o.file o.now = ⟨lc, none, false⟩ := by
          simp [listenerCycle, hmt, hlt]
        have hemits : listenerEmits lc (o :: rest) = listenerEmits lc rest := by
          simp [listenerEmits, hcyc]
        rw [hemits]
        exact ih lc har

/-- Witness for C6: a file processed at mtime 5, then rewritten with the same
mtime 5, yields exactly one event; its mtime list is trivially strictly
increasing. -/
theorem listener_at_most_once_per_mtime_witness :
    List.Pairwise (fun a b => a.1 < b.1)
      (listenerEmits 0
        [⟨⟨some 5, some ⟨"15551234567", "me", false, "hi", "t1"⟩⟩, 10⟩,
         ⟨⟨some 5, some ⟨"15551234567", "me", false, "hi", "t1"⟩⟩, 20⟩]) ∧
    ∀ p ∈ listenerEmits 0
        [⟨⟨some 5, some ⟨"15551234567", "me", false, "hi", "t1"⟩⟩, 10⟩,
         ⟨⟨some 5, some ⟨"15551234567", "me", false, "hi", "t1"⟩⟩, 20⟩], 0 < p.1 :=
  listener_at_most_once_per_mtime
    [⟨⟨some 5, some ⟨"15551234567", "me", false, "hi", "t1"⟩⟩, 10⟩,
     ⟨⟨some 5, some ⟨"15551234567", "me", false, "hi", "t1"⟩⟩, 20⟩] 0
    (by
      intro o ho m hm
      rcases List.mem_cons.mp ho with h | h
      · subst h
        simp only [Option.some.injEq] at hm
        show m ≤ 10
        omega
      · rcases List.mem_cons.mp h with h' | h'
        · subst h'
          simp only [Option.some.injEq] at hm
          show m ≤ 20
          omega
        · simp at h')

/-- C7: listener isolation.  A listener only consults its own inbound file
`received_<id>.json`, so placing or rewriting the file of a listener with a
different id leaves its poll cycle's outcome (timestamp, event, deletion)
unchanged. -/
theorem listener_isolation (a b : String) (hab : a ≠ b) (lc now : Nat)
    (fs : String → InboundFileObs) (v : InboundFileObs) :
    listenerCycleFs b lc (updateFs fs (receivedFileName a) v) now =
      listenerCycleFs b lc fs now := by
  unfold listenerCycleFs updateFs
  rw [if_neg]
  intro h
  exact hab (receivedFileName_inj h).symm

/-- Witness for C7: two concrete listeners "alice" and "bob"; writing a fresh
inbound file for "alice" does not change "bob"'s cycle. -/
theorem listener_isolation_witness :
    listenerCycleFs "bob" 0
        (updateFs (fun _ => ⟨none, none⟩) (receivedFileName "alice")
          ⟨some 3, some ⟨"15551234567", "me", false, "hi", "t1"⟩⟩) 9 =
      listenerCycleFs "bob" 0 (fun _ => ⟨none, none⟩) 9 :=
  listener_isolation "alice" "bob" (by decide) 0 9 (fun _ => ⟨none, none⟩)
    ⟨some 3, some ⟨"15551234567", "me", false, "hi", "t1"⟩⟩

end Noder
